import Mathlib

/-!
Verification development for the USD-Web-Analysis backend
(`backend/usd_analyzer.py` and `backend/main.py`).

The embedding models paths as lists of characters and defines all string
operations as structural recursions, so the kernel can evaluate every
definition on concrete inputs.  Conventions of the embedding:

* `os.path` functions are modelled with their POSIX separator semantics
  (separator character is a slash); the explicit backslash-to-slash
  `str.replace` calls of the source are kept where the source performs them.
  `os.path.isabs` keeps the Windows drive-letter acceptance of the source
  deployment (a path is absolute when it starts with a slash or when its
  second character is a colon followed by a separator).
* The filesystem is abstract: a `SceneFS` lists the existing files, the
  existing directories, and, for each file, the sequence of `@`-delimited
  tokens appearing in its raw text.  The regular-expression batteries of the
  source that scan raw document text are modelled as operating on that token
  sequence; tokens are assumed free of whitespace, quotes and regex
  metacharacters other than the dot, exactly the token shapes the source
  regexes accept.  The order of `fs.files` is the directory-walk order.
* The USD scene-graph engine (`pxr`) is an external collaborator (spec
  section 6); every call into it is wrapped in a `try/except` that turns any
  failure into "no data", and the embedding models it as yielding no data.
* Recursion of the analyzer is modelled with explicit fuel; all theorems
  about traversal quantify over any sufficiently large fuel, which expresses
  termination of the visited-set-guarded recursion.
* Python dictionaries are modelled as insertion-ordered association lists.
-/

set_option maxHeartbeats 4000000

namespace UsdWeb

/-- Paths (and all other python strings of the model) are lists of characters. -/
abbrev Path := List Char

/-- Conversion from Lean string literals to model strings. -/
def ps (s : String) : Path := s.data

/-- Decidable list membership returning a `Bool` (python `in` on a list/set). -/
def memB (a : Path) : List Path → Bool
  | [] => false
  | x :: xs => if x = a then true else memB a xs

/-- Index of the first occurrence (python `list.index`); callers guard with `memB`. -/
def idxOfP (a : Path) : List Path → Nat
  | [] => 0
  | x :: xs => if x = a then 0 else idxOfP a xs + 1

/-- python `str.split(pat)` helper: accumulates the current piece reversed.
Each step consumes at least one character of `s`, so the fuel `splitPat`
supplies is always sufficient; the fuel makes the recursion structural and
hence kernel-reducible. -/
def splitPatAux (p0 : Char) (ptl : Path) : Nat → Path → Path → List Path
  | _, [], acc => [acc.reverse]
  | 0, _ :: _, acc => [acc.reverse]
  | fuel + 1, c :: rest, acc =>
    if (p0 :: ptl).isPrefixOf (c :: rest) then
      acc.reverse :: splitPatAux p0 ptl fuel (List.drop ptl.length rest) []
    else
      splitPatAux p0 ptl fuel rest (c :: acc)

/-- python `str.split(pat)` for a non-empty pattern (the source never splits on
an empty separator). -/
def splitPat (pat : Path) (s : Path) : List Path :=
  match pat with
  | [] => [s]
  | p0 :: ptl => splitPatAux p0 ptl s.length s []

/-- python `pat in s` (substring test). -/
def hasSub (pat : Path) : Path → Bool
  | [] => pat.isEmpty
  | c :: rest => pat.isPrefixOf (c :: rest) || hasSub pat rest

/-- python `str.replace(pat, repl)`: left-to-right, non-overlapping, all
occurrences.  `s.replace(p, r) = r.join(s.split(p))`. -/
def replaceAll (pat repl s : Path) : Path :=
  List.intercalate repl (splitPat pat s)

/-- python `str.lower()` (ASCII case, which is all the source manipulates). -/
def lowerP (p : Path) : Path := p.map Char.toLower

/-- Whitespace characters removed by python `str.strip()`. -/
def isSpaceChar (c : Char) : Bool :=
  c = ' ' || c = '\t' || c = '\n' || c = '\r'

/-- python `str.strip()`. -/
def stripWs (p : Path) : Path :=
  ((p.dropWhile isSpaceChar).reverse.dropWhile isSpaceChar).reverse

/-- Quote characters removed by python `str.strip('"\'')` (double quote and
apostrophe, written via its code point). -/
def isQuoteChar (c : Char) : Bool :=
  c = '"' || c = Char.ofNat 39

/-- python `str.strip('"\'')`. -/
def stripQuotes (p : Path) : Path :=
  ((p.dropWhile isQuoteChar).reverse.dropWhile isQuoteChar).reverse

/-- Number of leading separators that `posixpath.normpath` preserves. -/
def leadSlashes (p : Path) : Nat :=
  if (ps "//").isPrefixOf p ∧ ¬ (ps "///").isPrefixOf p then 2
  else if (ps "/").isPrefixOf p then 1 else 0

/-- Segment loop of `posixpath.normpath`; `racc` is the processed-segment stack
(reversed). -/
def normSegsAux (isAbs : Bool) : List Path → List Path → List Path
  | [], racc => racc.reverse
  | comp :: rest, racc =>
    let headDD : Bool := match racc with | r :: _ => decide (r = ps "..") | [] => false
    if comp = [] ∨ comp = ps "." then normSegsAux isAbs rest racc
    else if comp ≠ ps ".." ∨ (isAbs = false ∧ racc = []) ∨ headDD = true then
      normSegsAux isAbs rest (comp :: racc)
    else
      match racc with
      | _ :: rtl => normSegsAux isAbs rest rtl
      | [] => normSegsAux isAbs rest []

/-- `os.path.normpath` (POSIX flavour). -/
def normpathP (p : Path) : Path :=
  if p = [] then ps "."
  else
    let n := leadSlashes p
    let segs := normSegsAux (decide (0 < n)) (splitPat (ps "/") p) []
    let out := List.replicate n '/' ++ List.intercalate (ps "/") segs
    if out = [] then ps "." else out

/-- `os.path.join` for two arguments (POSIX flavour). -/
def pjoin (a b : Path) : Path :=
  if (ps "/").isPrefixOf b then b
  else if a = [] ∨ a.getLast? = some '/' then a ++ b
  else a ++ ps "/" ++ b

/-- `os.path.basename` (everything after the last separator). -/
def basenameP (p : Path) : Path :=
  (splitPat (ps "/") p).getLastD []

/-- `os.path.dirname`: everything up to the last separator, with trailing
separators stripped unless the head is all separators. -/
def dirnameP (p : Path) : Path :=
  let afterLen := (p.reverse.takeWhile (fun c => ¬ c = '/')).length
  if afterLen = p.length then []
  else
    let head := p.take (p.length - afterLen)
    if head.all (fun c => c = '/') then head
    else (head.reverse.dropWhile (fun c => c = '/')).reverse

/-- Extension part of `os.path.splitext` (includes the dot; empty when the
basename has no dot after a non-dot character). -/
def splitextExt (p : Path) : Path :=
  let b := basenameP p
  let afterDot := b.reverse.takeWhile (fun c => ¬ c = '.')
  if afterDot.length = b.length then []
  else
    let pre := b.take (b.length - afterDot.length - 1)
    if pre.any (fun c => ¬ c = '.') then '.' :: afterDot.reverse else []

/-- `os.path.isabs` as in the source deployment: separator-rooted, or a drive
letter followed by a colon and a separator. -/
def isabsP : Path → Bool
  | [] => false
  | c :: rest =>
    if c = '/' then true
    else
      match rest with
      | c2 :: c3 :: _ => c2 = ':' && (c3 = '/' || c3 = '\\')
      | _ => false

/-- python `str.lstrip('/')`. -/
def lstripSlashes (p : Path) : Path := p.dropWhile (fun c => c = '/')

/-- Fixed-'*' glob matching with bounded recursion; the star does not cross a
separator, all other characters are literal (the wildcard patterns the source
builds contain no other metacharacters).  The fuel is always sufficient. -/
def globMatchA : Nat → Path → Path → Bool
  | 0, _, _ => false
  | n + 1, pat, s =>
    match pat with
    | [] => s.isEmpty
    | c :: pr =>
      if c = '*' then
        globMatchA n pr s ||
          (match s with
           | [] => false
           | x :: xs => if x = '/' then false else globMatchA n pat xs)
      else
        match s with
        | [] => false
        | x :: xs => if x = c then globMatchA n pr xs else false

/-- `glob.fnmatch` on a '*'-only pattern. -/
def globMatch (pat s : Path) : Bool :=
  globMatchA (pat.length + s.length + 1) pat s

/-!  ## Abstract filesystem

A `SceneFS` lists the existing regular files, the existing directories, the
process working directory, and for each file the sequence of `@`-delimited
tokens of its raw text (the content abstraction for the textual extraction
battery).  `files` is ordered as `os.walk` would enumerate the files. -/

structure SceneFS where
  files : List Path
  dirs : List Path
  cwd : Path
  tokens : List (Path × List Path)
  deriving DecidableEq

/-- `os.path.exists` (true for files and directories). -/
def fsExistsB (fs : SceneFS) (p : Path) : Bool :=
  memB p fs.files || memB p fs.dirs

/-- `os.path.isdir`. -/
def fsIsDirB (fs : SceneFS) (p : Path) : Bool := memB p fs.dirs

/-- `os.path.isfile`. -/
def fsIsFileB (fs : SceneFS) (p : Path) : Bool := memB p fs.files

/-- The `@`-token sequence of a file's raw text (empty when unreadable). -/
def fsTokens (fs : SceneFS) (p : Path) : List Path :=
  match fs.tokens.find? (fun e => e.1 = p) with
  | some e => e.2
  | none => []

/-- `file` is inside the tree rooted at `dir` (what `os.walk(dir)` reaches). -/
def inWalk (dir f : Path) : Bool := (dir ++ ps "/").isPrefixOf f

/-- Names returned by `os.listdir dir` (files and directories directly in
`dir`). -/
def listdirFS (fs : SceneFS) (dir : Path) : List Path :=
  ((fs.files ++ fs.dirs).filter (fun f => dirnameP f = dir)).map basenameP

/-!  ## `EnhancedUsdAnalyzer.resolve_path` (usd_analyzer.py lines 39-230) -/

/-- UDIM substitution patterns in the order of `resolve_path` (line 57). -/
def udimSubPats : List Path :=
  [ps "<UDIM>", ps "<udim>", ps ".####.", ps ".<UDIM>.", ps ".<udim>."]

/-- First UDIM pattern occurring in the token, if any. -/
def findUdimPat (p : Path) : Option Path :=
  udimSubPats.find? (fun pat => hasSub pat p)

/-- Fallback search of `resolve_path` in a sibling `txt`/`publish` directory:
walk the tree, return the first file whose basename equals the (substituted)
token basename, or — for UDIM tokens — starts with the detemplated basename;
for UDIM tokens the source then rebuilds the answer from the found file's
directory and `basename.replace('.1001.','').replace('.', pattern + '.')`
(lines 88-127 and 155-194; both the `txt` and `publish` blocks are verbatim
copies of this logic). -/
def searchAltDir (fs : SceneFS) (searchDir fname : Path) (udim? : Option Path) :
    Option Path :=
  if fsExistsB fs searchDir then
    match fs.files.find? (fun f =>
        inWalk searchDir f &&
        (basenameP f = fname ||
          (udim?.isSome && (replaceAll (ps ".1001.") [] fname).isPrefixOf (basenameP f)))) with
    | some found =>
      match udim? with
      | some pat =>
        let bn := replaceAll (ps ".1001.") [] fname
        some (pjoin (dirnameP found) (replaceAll (ps ".") (pat ++ ps ".") bn))
      | none => some found
    | none => none
  else none

/-- Relative-token resolution of `resolve_path` against a base directory.  The
source has two verbatim-identical blocks for `../`-style and plain relative
tokens (lines 71-137 and 138-204); both are this function. -/
def resolveRelDir (fs : SceneFS) (base fp : Path) (udim? : Option Path) : Path :=
  let full := normpathP (pjoin base fp)
  if fsExistsB fs full then
    match udim? with
    | some pat => replaceAll (ps ".1001.") pat full
    | none => full
  else
    let fname := basenameP fp
    match searchAltDir fs (pjoin (dirnameP base) (ps "txt")) fname udim? with
    | some r => r
    | none =>
      match searchAltDir fs (pjoin (dirnameP base) (ps "publish")) fname udim? with
      | some r => r
      | none =>
        match udim? with
        | some pat => replaceAll (ps ".1001.") pat full
        | none => full

/-- `resolve_path(file_path, base_dir)`.  Absolute tokens return unchanged
before any stripping; then quotes/whitespace are stripped, a UDIM placeholder
is substituted by `.1001.` for the existence checks, and the answer is
restored with `replace('.1001.', pattern)`.  Without a base directory the
token resolves against the working directory, where the exists/else branches
of the source return the same value (lines 206-230). -/
def resolvePathFS (fs : SceneFS) (fp0 : Path) (baseDir : Option Path) :
    Option Path :=
  if fp0 = [] then none
  else if isabsP fp0 then some fp0
  else
    let fp1 := stripQuotes (stripWs fp0)
    let udim? := findUdimPat fp1
    let fp := match udim? with
      | some pat => replaceAll pat (ps ".1001.") fp1
      | none => fp1
    match baseDir with
    | some base =>
      if (ps "../").isPrefixOf fp || (ps "./").isPrefixOf fp then
        some (resolveRelDir fs base fp udim?)
      else
        some (resolveRelDir fs base fp udim?)
    | none =>
      let full := normpathP (pjoin fs.cwd fp)
      if fsExistsB fs full then
        some (match udim? with
              | some pat => replaceAll (ps ".1001.") pat full
              | none => full)
      else
        some (match udim? with
              | some pat => replaceAll (ps ".1001.") pat full
              | none => full)

/-!  ## `normalize_path` (lines 232-254) -/

/-- `normalize_path`: `None` for an empty path, otherwise
`os.path.normpath` with separators folded to slashes and an upper-cased
drive letter. -/
def normalizePathFS (p : Path) : Option Path :=
  if p = [] then none
  else
    let np := replaceAll (ps "\\") (ps "/") (normpathP p)
    match np with
    | c1 :: c2 :: rest =>
      some (if c2 = ':' then Char.toUpper c1 :: c2 :: rest else np)
    | _ => some np

/-!  ## Classification predicates (lines 408-466) -/

/-- Texture extensions of `is_likely_texture_path` (17 entries, line 417). -/
def textureExts : List Path :=
  [ps ".jpg", ps ".jpeg", ps ".png", ps ".tif", ps ".tiff", ps ".exr",
   ps ".hdr", ps ".tx", ps ".tex", ps ".bmp", ps ".gif", ps ".psd",
   ps ".tga", ps ".iff", ps ".dpx", ps ".cin", ps ".svg"]

/-- `is_likely_texture_path` (lines 408-441). -/
def isLikelyTexturePath (p0 : Path) : Bool :=
  if p0 = [] then false
  else
    let p := stripQuotes (stripWs p0)
    let hasExt := textureExts.any (fun e => e.isSuffixOf (lowerP p))
    let hasUdim := [ps "<UDIM>", ps "<udim>", ps ".####.", ps ".<udim>.",
        ps ".<UDIM>.", ps "1001.", ps "10[0-9][0-9]"].any (fun pat => hasSub pat p)
    let kws := [ps "texture", ps "map", ps "image", ps "tex", ps "diffuse",
        ps "albedo", ps "normal", ps "roughness", ps "metallic", ps "specular",
        ps "emission", ps "occlusion", ps "height", ps "bump", ps "color",
        ps "opacity", ps "displacement"]
    let hasKw := kws.any (fun k => hasSub k (lowerP p))
    let dirKws := [ps "texture", ps "textures", ps "tex", ps "maps",
        ps "images", ps "txt", ps "publish"]
    let hasDir := dirKws.any (fun k =>
        hasSub (ps "/" ++ k ++ ps "/") (replaceAll (ps "\\") (ps "/") (lowerP p)))
    hasExt || hasUdim || hasDir || (hasKw && hasSub (ps ".") p)

/-- Scene-file extensions (line 456). -/
def usdExts : List Path := [ps ".usd", ps ".usda", ps ".usdc", ps ".usdz"]

/-- `is_likely_usd_path` (lines 443-466); note it strips only quotes. -/
def isLikelyUsdPath (p0 : Path) : Bool :=
  let p := stripQuotes p0
  let hasExt := usdExts.any (fun e => e.isSuffixOf (lowerP p))
  let hasPat := [ps "/usd/", ps "/assets/", ps "/publish/", ps "/model/",
      ps "/lookdev/", ps "/animation/"].any (fun k => hasSub k (lowerP p))
  let looksPath := (hasSub (ps "/") p || hasSub (ps "\\") p) &&
      ! (ps "http").isPrefixOf p
  hasExt || (looksPath && hasPat)

/-!  ## Analyzer state and `add_texture_path` (lines 369-406) -/

/-- Mutable state of `EnhancedUsdAnalyzer`: the visited set, the
`texture_files` dict (path to provenance, first insertion wins), the
`references` list of `(raw token, kind)` pairs, and `texture_udim_counts`.
The `referenced_usd_files` set is never read by any output and is omitted. -/
structure AState where
  processed : List Path
  textures : List (Path × Path)
  references : List (Path × Path)
  udimCounts : List (Path × Nat)
  deriving DecidableEq

/-- Dictionary assignment `m[k] = v` (overwrite in place, else append). -/
def upsertN (m : List (Path × Nat)) (k : Path) (v : Nat) : List (Path × Nat) :=
  if m.any (fun e => e.1 = k) then
    m.map (fun e => if e.1 = k then (k, v) else e)
  else m ++ [(k, v)]

/-- Dictionary assignment for path-valued dicts. -/
def upsertPS (m : List (Path × Path)) (k v : Path) : List (Path × Path) :=
  if m.any (fun e => e.1 = k) then
    m.map (fun e => if e.1 = k then (k, v) else e)
  else m ++ [(k, v)]

/-- Lookup in a `Nat`-valued dict (`dict.get`). -/
def lookupN (m : List (Path × Nat)) (k : Path) : Option Nat :=
  match m.find? (fun e => e.1 = k) with
  | some e => some e.2
  | none => none

/-- Atom of the regexes the source builds by `str.replace` on file names
without escaping: a literal character, the regex dot (any character), a
`\d{4}` hole, or a `\d+` hole. -/
inductive RAtom where
  | lit (c : Char)
  | anyc
  | dig4
  deriving DecidableEq

/-- Prefix matching (`re.match`) of an atom sequence; every atom here is of
fixed width, so matching is deterministic. -/
def rmatchPrefix : List RAtom → Path → Bool
  | [], _ => true
  | RAtom.lit c :: rest, x :: xs => if x = c then rmatchPrefix rest xs else false
  | RAtom.anyc :: rest, _ :: xs => rmatchPrefix rest xs
  | RAtom.dig4 :: rest, s =>
    if (s.take 4).length = 4 && (s.take 4).all Char.isDigit then
      rmatchPrefix rest (s.drop 4)
    else false
  | _ :: _, [] => false

/-- Pattern built by `add_texture_path` from the file name (lines 385-390):
`<UDIM>`/`<udim>` become `\d{4}`, else `.####.` becomes `.\d{4}.` (with regex
dots), and every other dot of the name is a regex dot. -/
def addTexAtomsGo (udimBranch hashBranch : Bool) : Nat → Path → List RAtom
  | _, [] => []
  | 0, c :: rest =>
    (if c = '.' then RAtom.anyc else RAtom.lit c) :: addTexAtomsGo udimBranch hashBranch 0 rest
  | fuel + 1, c :: rest =>
    if udimBranch && ((ps "<UDIM>").isPrefixOf (c :: rest) ||
        (ps "<udim>").isPrefixOf (c :: rest)) then
      RAtom.dig4 :: addTexAtomsGo udimBranch hashBranch fuel (List.drop 5 rest)
    else if hashBranch && (ps ".####.").isPrefixOf (c :: rest) then
      RAtom.anyc :: RAtom.dig4 :: RAtom.anyc ::
        addTexAtomsGo udimBranch hashBranch fuel (List.drop 5 rest)
    else
      (if c = '.' then RAtom.anyc else RAtom.lit c) ::
        addTexAtomsGo udimBranch hashBranch fuel rest

/-- Regex of `add_texture_path` for a UDIM file name. -/
def addTexAtoms (fname : Path) : List RAtom :=
  let udimBranch := hasSub (ps "<UDIM>") fname || hasSub (ps "<udim>") fname
  let hashBranch := !udimBranch && hasSub (ps ".####.") fname
  addTexAtomsGo udimBranch hashBranch fname.length fname

/-- `add_texture_path(path, source)` (lines 369-406): for UDIM paths count the
directory entries matching the rebuilt name regex (prefix match) and store the
count; then insert the path into `texture_files` if absent (first source
wins). -/
def addTexturePath (fs : SceneFS) (s : AState) (p src : Path) : AState :=
  if p = [] then s
  else
    let isU := [ps "<UDIM>", ps "<udim>", ps ".####.", ps ".<udim>.",
        ps ".<UDIM>."].any (fun pat => hasSub pat p)
    let s :=
      if isU then
        let bdir := dirnameP p
        let atoms := addTexAtoms (basenameP p)
        let cnt :=
          if fsExistsB fs bdir then
            (listdirFS fs bdir).countP (fun f => rmatchPrefix atoms f)
          else 0
        { s with udimCounts := upsertN s.udimCounts p cnt }
      else s
    if s.textures.any (fun e => e.1 = p) then s
    else { s with textures := s.textures ++ [(p, src)] }

/-!  ## `count_udim_textures_in_path` (lines 1665-1771) -/

/-- UDIM detection patterns used by the report/count code (lines 854, 1692). -/
def udimCheckPats : List Path :=
  [ps "<UDIM>", ps "<udim>", ps ".####.", ps ".<udim>.", ps ".<UDIM>."]

/-- Fullmatch of `^base(\d{4})ext$` after `re.escape` of base and ext. -/
def matchBaseDig4Ext (base ext f : Path) : Bool :=
  if f.length = base.length + 4 + ext.length then
    base.isPrefixOf f && ext.isSuffixOf f &&
      ((f.drop base.length).take 4).all Char.isDigit
  else false

/-- Fullmatch of `^base\.(\d+)\.ext$` (escaped base/ext, literal dots). -/
def matchBaseDotDigsDotExt (exact4 : Bool) (base ext f : Path) : Bool :=
  let pre := base ++ ps "."
  let suf := ps "." ++ ext
  if pre.length + suf.length + 1 ≤ f.length then
    pre.isPrefixOf f && suf.isSuffixOf f &&
      (let mid := (f.drop pre.length).take (f.length - pre.length - suf.length)
       mid.all Char.isDigit && (if exact4 then mid.length = 4 else 0 < mid.length))
  else false

/-- Fullmatch of `^base(\d+)ext$` (escaped base/ext). -/
def matchBaseDigsExt (base ext f : Path) : Bool :=
  if base.length + ext.length + 1 ≤ f.length then
    base.isPrefixOf f && ext.isSuffixOf f &&
      (let mid := (f.drop base.length).take (f.length - base.length - ext.length)
       mid.all Char.isDigit && 0 < mid.length)
  else false

/-- `count_udim_textures_in_path(udim_path)`: 0 for empty input, a missing
directory, a basename without a placeholder, or a failed base/extension
split; otherwise the count of directory entries fullmatching the anchored
patterns built from the placeholder family, with a glob-wildcard fallback when
that count is zero. -/
def countUdimTexturesInPath (fs : SceneFS) (udimPath : Path) : Nat :=
  if udimPath = [] then 0
  else
    let path := replaceAll (ps "\\") (ps "/") udimPath
    let dirPath := dirnameP path
    let fname := basenameP path
    if ! fsExistsB fs dirPath then 0
    else if ! udimCheckPats.any (fun pat => hasSub pat fname) then 0
    else
      match udimCheckPats.find? (fun pat => hasSub pat fname) with
      | none => 0
      | some patF =>
        match splitPat patF fname with
        | base :: ext :: _ =>
          if base = [] ∨ ext = [] then 0
          else
            let famMatch : Path → Bool := fun f =>
              (if patF = ps "<UDIM>" ∨ patF = ps "<udim>" then
                 matchBaseDig4Ext base ext f
               else
                 matchBaseDotDigsDotExt true base ext f) ||
              matchBaseDotDigsDotExt false base ext f ||
              matchBaseDigsExt base ext f
            let cnt := (listdirFS fs dirPath).countP famMatch
            if cnt = 0 then
              let w := replaceAll (ps ".<UDIM>.") (ps ".*.")
                (replaceAll (ps ".<udim>.") (ps ".*.")
                  (replaceAll (ps ".####.") (ps ".*.")
                    (replaceAll (ps "<udim>") (ps "*")
                      (replaceAll (ps "<UDIM>") (ps "*") path))))
              (fs.files ++ fs.dirs).countP (fun f => globMatch w f)
            else cnt
        | _ => 0

/-!  ## `count_actual_textures` (lines 1579-1663) -/

/-- Image extensions counted by the directory-wide census (line 1653). -/
def imgExts9 : List Path :=
  [ps ".jpg", ps ".jpeg", ps ".png", ps ".tif", ps ".tiff", ps ".exr",
   ps ".hdr", ps ".tx", ps ".tex"]

/-- Fullmatch of `^base.*\.ext$` (escaped base/ext, `.*` arbitrary). -/
def matchBaseAnyDotExt (base ext f : Path) : Bool :=
  if base.length + ext.length + 1 ≤ f.length then
    base.isPrefixOf f && (ps "." ++ ext).isSuffixOf f
  else false

/-- `count_actual_textures(base_path)`: for UDIM paths first count directory
entries matching the anchored UDIM name patterns; when that yields nothing
(or the path is not UDIM) count every image file in the directory. -/
def countActualTextures (fs : SceneFS) (basePath : Path) : Nat :=
  if basePath = [] then 0
  else
    let path := replaceAll (ps "\\") (ps "/") basePath
    let dirPath := dirnameP path
    let fname := basenameP path
    if ! fsExistsB fs dirPath then 0
    else
      let isU := udimCheckPats.any (fun pat => hasSub pat path)
      let udimCount :=
        if isU then
          match udimCheckPats.find? (fun pat => hasSub pat fname) with
          | some patF =>
            match splitPat patF fname with
            | base :: ext :: _ =>
              if base ≠ [] ∧ ext ≠ [] then
                (listdirFS fs dirPath).countP (fun f =>
                  matchBaseDotDigsDotExt true base ext f ||
                  matchBaseDotDigsDotExt false base ext f ||
                  matchBaseAnyDotExt base ext f)
              else 0
            | _ => 0
          | none => 0
        else 0
      if isU ∧ 0 < udimCount then udimCount
      else (listdirFS fs dirPath).countP (fun f =>
        memB (lowerP (splitextExt f)) imgExts9)

/-!  ## Textual extraction (lines 256-324) over the token model -/

/-- Extensions of the `@...ext@` texture regex in
`extract_references_from_text` (line 311); the regex alternatives are literal
lower-case, so the suffix test is case-sensitive. -/
def textRefTexExts : List Path := textureExts

/-- Reference tokens returned by `extract_references_from_text`: the pattern
battery collects `@`-tokens that classify as scene paths and not as texture
paths.  Duplicates the battery would produce are dropped later by the caller's
already-added check, so the filtered token list yields the same state. -/
def extractTextRefs (fs : SceneFS) (filePath : Path) : List Path :=
  (fsTokens fs filePath).filter
    (fun t => isLikelyUsdPath t && ! isLikelyTexturePath t)

/-- Texture side effect of `extract_references_from_text` (lines 310-319):
`@`-tokens with an image-extension suffix that classify as textures are
resolved against the file's own directory and recorded with provenance
`"<file>:texture_reference"`. -/
def textTexLoop (fs : SceneFS) (filePath : Path) (s : AState) : AState :=
  (fsTokens fs filePath).foldl
    (fun st t =>
      if textRefTexExts.any (fun e => e.isSuffixOf t) && isLikelyTexturePath t then
        match resolvePathFS fs t (some (dirnameP filePath)) with
        | some rp =>
          addTexturePath fs st rp (basenameP filePath ++ ps ":texture_reference")
        | none => st
      else st)
    s

/-!  ## `extract_assets_from_usd` (lines 1300-1577; the class defines this
method twice with identical bodies, lines 518-795 being shadowed) -/

/-- Token classification of the `@`-scan (line 1463): has a dot and contains
one of seven image extensions (substring, case-insensitive). -/
def tokenIsImage (t : Path) : Bool :=
  hasSub (ps ".") t &&
    [ps ".jpg", ps ".jpeg", ps ".png", ps ".tif", ps ".tiff", ps ".exr",
     ps ".hdr"].any (fun e => hasSub e (lowerP t))

/-- Token classification of the `@`-scan (line 1475): contains a scene-file
extension as a substring, case-insensitively. -/
def tokenIsUsd (t : Path) : Bool :=
  [ps ".usda", ps ".usd", ps ".usdz"].any (fun e => hasSub e (lowerP t))

/-- UDIM provenance mark of the `@`-scan (lines 1385, 1468). -/
def tokenUdimMark (t : Path) : Bool :=
  [ps "<UDIM>", ps "<udim>", ps ".####.", ps ".1001."].any
    (fun pat => hasSub pat t)

/-- The inline already-added check (lines 1398-1403, 1433-1439, 1480-1486):
some existing reference token resolves to the same `os.path.normpath` as the
given resolved path. -/
def refMatchesResolved (fs : SceneFS) (base : Option Path)
    (refs : List (Path × Path)) (rp : Path) : Bool :=
  refs.any (fun e =>
    match resolvePathFS fs e.1 base with
    | some ef => normpathP ef = normpathP rp
    | none => false)

/-- `is_reference_already_added` (lines 1322-1332): resolve the candidate,
then compare as above. -/
def refAlreadyAddedTok (fs : SceneFS) (base : Option Path)
    (refs : List (Path × Path)) (tok : Path) : Bool :=
  match resolvePathFS fs tok base with
  | none => false
  | some rp => refMatchesResolved fs base refs rp

/-- Sibling shader-override directory of a scene file (line 1345). -/
def shaderDirOf (abs : Path) : Path := pjoin (dirnameP abs) (ps "shader")

/-- The designated primary document inside it (line 1352). -/
def shaderMainOf (abs : Path) : Path := pjoin (shaderDirOf abs) (ps "main.usda")

/-- Guard of the shader special case (lines 1346-1356): the shader directory
exists and is a directory, and `shader/main.usda` exists and is a file. -/
def shaderCaseB (fs : SceneFS) (abs : Path) : Bool :=
  fsExistsB fs (shaderDirOf abs) && fsIsDirB fs (shaderDirOf abs) &&
    fsExistsB fs (shaderMainOf abs) && fsIsFileB fs (shaderMainOf abs)

/-- Work items of the traversal: a scene file to process, the normal-phase
body of a file, the recursion loop over textual references, and the
`@`-token scan loop (the scan loop serves both the shader document, with
source prefix "shader" and base the shader directory, and step 2 of the
normal phase — the two loops are verbatim copies in the source). -/
inductive Job where
  | one (usdPath : Path) (baseDir : Option Path)
  | mainA (abs : Path) (effDir : Path)
  | refLoop (effDir : Path) (refs : List Path)
  | scanLoop (srcName : Path) (effDir : Path) (toks : List Path)

/-- One `analyze` traversal, fuel-indexed so that the recursion is structural;
every theorem about it quantifies over all sufficiently large fuels.  The
`pxr` scene-graph engine section (lines 1497-1573) is an external collaborator
whose failures the source maps to "no data"; it is modelled as contributing
nothing. -/
def runJob (fs : SceneFS) : Nat → Job → AState → AState
  | 0, _, s => s
  | fuel + 1, Job.one usdPath baseDir, s =>
    match resolvePathFS fs usdPath baseDir with
    | none => s
    | some abs =>
      if memB abs s.processed then s
      else
        let s := { s with processed := abs :: s.processed }
        if ! fsExistsB fs abs then s
        else
          let effDir := baseDir.getD (dirnameP abs)
          if shaderCaseB fs abs then
            let s :=
              if refAlreadyAddedTok fs (some effDir) s.references (shaderMainOf abs) then s
              else { s with references := s.references ++ [(shaderMainOf abs, ps "shader")] }
            let s := { s with textures := [] }
            let s := runJob fs fuel
              (Job.scanLoop (ps "shader") (shaderDirOf abs) (fsTokens fs (shaderMainOf abs))) s
            if s.textures.isEmpty then runJob fs fuel (Job.mainA abs effDir) s
            else s
          else runJob fs fuel (Job.mainA abs effDir) s
  | fuel + 1, Job.mainA abs effDir, s =>
    let s := textTexLoop fs abs s
    let s := runJob fs fuel (Job.refLoop effDir (extractTextRefs fs abs)) s
    if lowerP (splitextExt abs) = ps ".usda" then
      runJob fs fuel (Job.scanLoop (basenameP abs) effDir (fsTokens fs abs)) s
    else s
  | _ + 1, Job.refLoop _ [], s => s
  | fuel + 1, Job.refLoop effDir (r :: rs), s =>
    let s :=
      match resolvePathFS fs r (some effDir) with
      | none => s
      | some full =>
        if refMatchesResolved fs (some effDir) s.references full then s
        else
          let s := { s with references := s.references ++ [(r, ps "reference")] }
          runJob fs fuel (Job.one full (some effDir)) s
    runJob fs fuel (Job.refLoop effDir rs) s
  | _ + 1, Job.scanLoop _ _ [], s => s
  | fuel + 1, Job.scanLoop srcName effDir (t :: ts), s =>
    let s :=
      if tokenIsImage t then
        match resolvePathFS fs t (some effDir) with
        | some rp =>
          addTexturePath fs s rp
            (srcName ++ (if tokenUdimMark t then ps ":UDIM" else ps ":texture"))
        | none => s
      else if tokenIsUsd t then
        match resolvePathFS fs t (some effDir) with
        | none => s
        | some rp =>
          if refMatchesResolved fs (some effDir) s.references rp then s
          else
            let s := { s with references := s.references ++ [(t, ps "reference")] }
            runJob fs fuel (Job.one rp (some effDir)) s
      else s
    runJob fs fuel (Job.scanLoop srcName effDir ts) s

/-- `extract_assets_from_usd` entry point. -/
def extractAssetsFromUsd (fs : SceneFS) (fuel : Nat) (usdPath : Path)
    (baseDir : Option Path) (s : AState) : AState :=
  runJob fs fuel (Job.one usdPath baseDir) s

/-!  ## Report normalization (`analyze_usd_file`, lines 797-887) -/

/-- Reference-list normalization loop (lines 810-842): resolve each raw
token, keep only tokens whose resolved path exists, normalize, and
deduplicate case-insensitively against the already-kept normalized paths. -/
def normRefsLoop (fs : SceneFS) (origDir : Option Path) :
    List (Path × Path) → List Path → List (Path × Path) → List (Path × Path)
  | [], _, acc => acc
  | (ref, ty) :: rest, upaths, acc =>
    match resolvePathFS fs ref origDir with
    | none => normRefsLoop fs origDir rest upaths acc
    | some rp =>
      if fsExistsB fs rp then
        match normalizePathFS rp with
        | none => normRefsLoop fs origDir rest upaths acc
        | some np =>
          if upaths.any (fun e => lowerP np = lowerP e) then
            normRefsLoop fs origDir rest upaths acc
          else
            normRefsLoop fs origDir rest (upaths ++ [np]) (acc ++ [(np, ty)])
      else normRefsLoop fs origDir rest upaths acc

/-- Texture-dict normalization loop (lines 844-877): resolve, normalize; for
UDIM paths keep only when `count_udim_textures_in_path` is positive; for
plain paths keep only when the normalized path exists and store the
directory census; entries land in a dict keyed by the exact normalized
path. -/
def normTexLoop (fs : SceneFS) (origDir : Option Path) :
    List (Path × Path) → List (Path × Path) → List (Path × Nat) →
      List (Path × Path) × List (Path × Nat)
  | [], utex, cnts => (utex, cnts)
  | (tp, src) :: rest, utex, cnts =>
    match resolvePathFS fs tp origDir with
    | none => normTexLoop fs origDir rest utex cnts
    | some rp =>
      match normalizePathFS rp with
      | none => normTexLoop fs origDir rest utex cnts
      | some np =>
        if udimCheckPats.any (fun pat => hasSub pat np) then
          let c := countUdimTexturesInPath fs np
          if 0 < c then
            normTexLoop fs origDir rest (upsertPS utex np src) (upsertN cnts np c)
          else normTexLoop fs origDir rest utex cnts
        else
          if fsExistsB fs np then
            normTexLoop fs origDir rest (upsertPS utex np src)
              (upsertN cnts np (countActualTextures fs np))
          else normTexLoop fs origDir rest utex cnts

/-- One reference entry of the returned report (`exists` is re-queried from
the filesystem when the result object is built, line 881). -/
structure RefEntry where
  path : Path
  rtype : Path
  fexists : Bool
  deriving DecidableEq

/-- One texture entry of the returned report; the source writes the literal
`True` into the `exists` field (line 882). -/
structure TexEntry where
  path : Path
  source : Path
  fexists : Bool
  actualTextureCount : Nat
  deriving DecidableEq

/-- The analysis report (line 880-884). -/
structure Report where
  references : List RefEntry
  textures : List TexEntry
  textureUdimCounts : List (Path × Nat)
  deriving DecidableEq

/-- `analyze_usd_file(file_path, original_dir)`: reset the state, run the
traversal, normalize references and textures, and build the result. -/
def analyzeUsdFile (fs : SceneFS) (fuel : Nat) (filePath : Path)
    (origDir : Option Path) : Report :=
  let s := extractAssetsFromUsd fs fuel filePath origDir ⟨[], [], [], []⟩
  let refs := normRefsLoop fs origDir s.references [] []
  let tc := normTexLoop fs origDir s.textures [] s.udimCounts
  { references := refs.map (fun e => ⟨e.1, e.2, fsExistsB fs e.1⟩)
    textures := tc.1.map (fun e => ⟨e.1, e.2, true, (lookupN tc.2 e.1).getD 1⟩)
    textureUdimCounts := tc.2 }

/-!  ## `/package` endpoint (`package_files`, main.py lines 428-808)

Copying is modelled by a set `copyOk` of source paths for which
`shutil.copy2` succeeds; a copy attempt outside it raises.  Directory
creation always succeeds and the human-readable message strings are not
modelled; the response carries the success flag and the copied-file manifest
(`copied_files`), which is absent from the failure responses of the source. -/

/-- A reference item of the request (`ref.get('path')`, `ref.get('type',
'reference')`). -/
structure PkgRefReq where
  rpath : Option Path
  rtype : Option Path
  deriving DecidableEq

/-- A texture item of the request. -/
structure PkgTexReq where
  tpath : Option Path
  tsource : Path
  ttype : Path
  deriving DecidableEq

/-- The `/package` request body. -/
structure PkgRequest where
  filePath : Path
  outputPath : Path
  textures : List PkgTexReq
  references : List PkgRefReq
  deriving DecidableEq

/-- An entry of `copied_references`. -/
structure CopiedRef where
  src : Path
  target : Path
  ctype : Path
  deriving DecidableEq

/-- An entry of `copied_textures`. -/
structure CopiedTex where
  src : Path
  target : Path
  ctype : Path
  sourceInfo : Path
  deriving DecidableEq

/-- The `copied_files` manifest of a successful response. -/
structure PkgCopied where
  mainTarget : Path
  references : List CopiedRef
  textures : List CopiedTex
  deriving DecidableEq

/-- The `/package` response: the failure branches return no manifest. -/
structure PkgResult where
  success : Bool
  copied : Option PkgCopied
  deriving DecidableEq

/-- Main-file destination-relative path (lines 462-475): everything after the
first `filmserver` segment, else the bare file name. -/
def mainRelativePath (sourceFile : Path) : Path :=
  let parts := splitPat (ps "/") (replaceAll (ps "\\") (ps "/") sourceFile)
  if memB (ps "filmserver") parts then
    let idx := idxOfP (ps "filmserver") parts
    if idx + 1 < parts.length then List.intercalate (ps "/") (parts.drop (idx + 1))
    else basenameP sourceFile
  else basenameP sourceFile

/-- The `filmserver` branch shared by the reference and texture relative-path
computations (lines 509-516, 674-681, 737-744). -/
def relPathFilmserver (p : Path) : Option Path :=
  let parts := splitPat (ps "/") (replaceAll (ps "\\") (ps "/") p)
  if memB (ps "filmserver") parts then
    let idx := idxOfP (ps "filmserver") parts
    some (if idx + 1 < parts.length then
            List.intercalate (ps "/") (parts.drop (idx + 1))
          else basenameP p)
  else none

/-- Key folders for reference destinations (line 528). -/
def refKeyFolders : List Path :=
  [ps "USD", ps "usd", ps "assets", ps "scenes", ps "shots", ps "env", ps "aa"]

/-- Key folders for texture destinations (lines 693, 756). -/
def texKeyFolders : List Path :=
  [ps "texture", ps "textures", ps "tex", ps "maps", ps "images", ps "txt",
   ps "publish", ps "USD", ps "usd", ps "assets"]

/-- Reference destination-relative path (lines 505-544): the `filmserver`
marker, else under-the-source-directory stripping, else the first reference
key folder onward (over the full path segments), else parent directory plus
file name. -/
def refRelativePath (sourceFile refPath : Path) : Path :=
  match relPathFilmserver refPath with
  | some r => r
  | none =>
    let sourceDir := replaceAll (ps "\\") (ps "/") (dirnameP sourceFile)
    let refDir := replaceAll (ps "\\") (ps "/") (dirnameP refPath)
    if sourceDir.isPrefixOf refDir then
      lstripSlashes (replaceAll sourceDir [] refPath)
    else
      let parts := splitPat (ps "/") (replaceAll (ps "\\") (ps "/") refPath)
      match refKeyFolders.find? (fun k => memB k parts) with
      | some k => List.intercalate (ps "/") (parts.drop (idxOfP k parts))
      | none => pjoin (basenameP (dirnameP refPath)) (basenameP refPath)

/-- Texture destination-relative path (lines 670-710 and verbatim again at
733-773): like the reference computation but the key-folder search runs over
the texture's directory segments and appends the file name. -/
def texRelativePath (sourceFile texFile : Path) : Path :=
  match relPathFilmserver texFile with
  | some r => r
  | none =>
    let sourceDir := replaceAll (ps "\\") (ps "/") (dirnameP sourceFile)
    let texDir := replaceAll (ps "\\") (ps "/") (dirnameP texFile)
    if sourceDir.isPrefixOf texDir then
      lstripSlashes (replaceAll sourceDir [] texFile)
    else
      let dparts := splitPat (ps "/") texDir
      match texKeyFolders.find? (fun k => memB k dparts) with
      | some k =>
        List.intercalate (ps "/") (dparts.drop (idxOfP k dparts) ++ [basenameP texFile])
      | none => pjoin (basenameP (dirnameP texFile)) (basenameP texFile)

/-- One step of the reference-copy loop (lines 490-566): empty or missing
paths are skipped with only a log line, the copy is inside `try/except` so an
individual copy failure also just skips the entry, and nothing about skips
enters the response. -/
def refCopyStep (fs : SceneFS) (copyOk : List Path) (outputPath sourceFile : Path)
    (acc : List CopiedRef) (r : PkgRefReq) : List CopiedRef :=
  match r.rpath with
  | none => acc
  | some rp =>
    if rp = [] then acc
    else if ! fsExistsB fs rp then acc
    else if memB rp copyOk then
      acc ++ [⟨rp, pjoin outputPath (refRelativePath sourceFile rp),
              r.rtype.getD (ps "reference")⟩]
    else acc

/-- The reference-copy loop. -/
def copyRefsLoop (fs : SceneFS) (copyOk : List Path) (outputPath sourceFile : Path)
    (l : List PkgRefReq) (acc : List CopiedRef) : List CopiedRef :=
  l.foldl (refCopyStep fs copyOk outputPath sourceFile) acc

/-- UDIM placeholder detection chain of the texture-copy loop
(lines 591-610), yielding the placeholder and the wildcard pattern. -/
def pkgUdimInfo (tp : Path) : Option (Path × Path) :=
  if hasSub (ps "<UDIM>") tp then some (ps "<UDIM>", replaceAll (ps "<UDIM>") (ps "*") tp)
  else if hasSub (ps "<udim>") tp then some (ps "<udim>", replaceAll (ps "<udim>") (ps "*") tp)
  else if hasSub (ps ".####.") tp then some (ps ".####.", replaceAll (ps ".####.") (ps ".*.") tp)
  else if hasSub (ps ".<UDIM>.") tp then some (ps ".<UDIM>.", replaceAll (ps ".<UDIM>.") (ps ".*.") tp)
  else if hasSub (ps ".<udim>.") tp then some (ps ".<udim>.", replaceAll (ps ".<udim>.") (ps ".*.") tp)
  else none

/-- Verification regex of the UDIM copy (lines 631-654): the placeholder is
replaced by a `(\d{4})` group — with escaped dots around it for the dotted
placeholders — while the remaining dots of the basename stay regex dots; the
captured index must lie in 1000..1999.  Matching is `re.match` (prefix). -/
def pkgVerifyAtomsGo (ph : Path) (phAtoms : List RAtom) : Nat → Path → List RAtom
  | _, [] => []
  | 0, c :: rest =>
    (if c = '.' then RAtom.anyc else RAtom.lit c) :: pkgVerifyAtomsGo ph phAtoms 0 rest
  | fuel + 1, c :: rest =>
    if ph.isPrefixOf (c :: rest) then
      phAtoms ++ pkgVerifyAtomsGo ph phAtoms fuel (List.drop (ph.length - 1) rest)
    else
      (if c = '.' then RAtom.anyc else RAtom.lit c) ::
        pkgVerifyAtomsGo ph phAtoms fuel rest

/-- Atoms substituted for the placeholder by the verification regex. -/
def pkgPhAtoms (ph : Path) : List RAtom :=
  if ph = ps "<UDIM>" ∨ ph = ps "<udim>" then [RAtom.dig4]
  else [RAtom.lit '.', RAtom.dig4, RAtom.lit '.']

/-- The verification pattern for a texture basename. -/
def pkgVerifyAtoms (ph bfname : Path) : List RAtom :=
  pkgVerifyAtomsGo ph (pkgPhAtoms ph) bfname.length bfname

/-- Prefix match that also extracts the captured 4-digit index. -/
def rmatchCapture : List RAtom → Path → Option Nat
  | [], _ => some 0
  | RAtom.lit c :: rest, x :: xs => if x = c then rmatchCapture rest xs else none
  | RAtom.anyc :: rest, _ :: xs => rmatchCapture rest xs
  | RAtom.dig4 :: rest, s =>
    if (s.take 4).length = 4 && (s.take 4).all Char.isDigit then
      match rmatchCapture rest (s.drop 4) with
      | some _ => some ((s.take 4).foldl (fun n c => n * 10 + (c.toNat - 48)) 0)
      | none => none
    else none
  | _ :: _, [] => none

/-- UDIM tile verification (lines 649-654). -/
def pkgVerifyTile (ph bfname : Path) (f : Path) : Bool :=
  match rmatchCapture (pkgVerifyAtoms ph bfname) (basenameP f) with
  | some n => decide (1000 ≤ n ∧ n ≤ 1999)
  | none => false

/-- One step of the copy loop over the verified tile files (lines 668-728):
non-files are skipped, and the copy is NOT wrapped in `try/except`, so a
failing copy raises out to the endpoint's outer handler (`none`, which then
propagates). -/
def udimCopyStep (fs : SceneFS) (copyOk : List Path)
    (outputPath sourceFile srcInfo : Path)
    (st : Option (List CopiedTex)) (m : Path) : Option (List CopiedTex) :=
  match st with
  | none => none
  | some acc =>
    if ! fsIsFileB fs m then some acc
    else if memB m copyOk then
      some (acc ++ [⟨m, pjoin outputPath (texRelativePath sourceFile m),
                    ps "UDIM", srcInfo⟩])
    else none

/-- The verified-tile copy loop. -/
def copyUdimFilesLoop (fs : SceneFS) (copyOk : List Path)
    (outputPath sourceFile srcInfo : Path)
    (l : List Path) (acc : List CopiedTex) : Option (List CopiedTex) :=
  l.foldl (udimCopyStep fs copyOk outputPath sourceFile srcInfo) (some acc)

/-- One step of the texture-copy loop (lines 568-793): UDIM textures expand
by glob over the directory and are verified; plain textures that exist are
copied directly.  Missing paths or directories are skipped; a failing
`shutil.copy2` (both in the UDIM branch, line 721, and the plain branch,
line 784) is unprotected and aborts the endpoint body (`none`). -/
def texCopyStep (fs : SceneFS) (copyOk : List Path) (outputPath sourceFile : Path)
    (st : Option (List CopiedTex)) (t : PkgTexReq) : Option (List CopiedTex) :=
  match st with
  | none => none
  | some acc =>
    match t.tpath with
    | none => some acc
    | some tp =>
      if tp = [] then some acc
      else
        match pkgUdimInfo tp with
        | some phpat =>
          if ! fsExistsB fs (dirnameP tp) then some acc
          else
            let globPat := pjoin (dirnameP tp) (basenameP phpat.2)
            let matching := (fs.files ++ fs.dirs).filter (fun f => globMatch globPat f)
            let verified := matching.filter (fun f => pkgVerifyTile phpat.1 (basenameP tp) f)
            let verified2 := if verified = [] ∧ matching ≠ [] then matching else verified
            if verified2 = [] then some acc
            else copyUdimFilesLoop fs copyOk outputPath sourceFile t.tsource verified2 acc
        | none =>
          if fsExistsB fs tp then
            if memB tp copyOk then
              some (acc ++ [⟨tp, pjoin outputPath (texRelativePath sourceFile tp),
                            (if t.ttype = [] then ps "texture" else t.ttype), t.tsource⟩])
            else none
          else some acc

/-- The texture-copy loop; a raised exception (`none`) aborts the rest. -/
def copyTexsLoop (fs : SceneFS) (copyOk : List Path) (outputPath sourceFile : Path)
    (l : List PkgTexReq) (acc : List CopiedTex) : Option (List CopiedTex) :=
  l.foldl (texCopyStep fs copyOk outputPath sourceFile) (some acc)

/-- `package_files(request)`.  A missing main file is retried with separators
folded either way, then reported as failure; a failing main-file copy or
texture copy raises into the outer handler, which returns a failure response
without a manifest. -/
def packageFiles (fs : SceneFS) (copyOk : List Path) (req : PkgRequest) : PkgResult :=
  let fp :=
    if fsExistsB fs req.filePath then some req.filePath
    else
      let np := replaceAll (ps "\\") (ps "/") req.filePath
      if fsExistsB fs np then some np
      else
        let ap := replaceAll (ps "/") (ps "\\") req.filePath
        if fsExistsB fs ap then some ap else none
  match fp with
  | none => ⟨false, none⟩
  | some sourceFile =>
    let targetFile := pjoin req.outputPath (mainRelativePath sourceFile)
    if ! memB sourceFile copyOk then ⟨false, none⟩
    else
      let copiedRefs := copyRefsLoop fs copyOk req.outputPath sourceFile req.references []
      match copyTexsLoop fs copyOk req.outputPath sourceFile req.textures [] with
      | none => ⟨false, none⟩
      | some copiedTexs => ⟨true, some ⟨targetFile, copiedRefs, copiedTexs⟩⟩

/-!  ## Spec-side comparison definitions

The following definitions follow the words of the specification (not the
source) and exist only to be compared against the source-derived
computations above. -/

/-- Spec reading of the root-marker rule: the path segments strictly after
the first root-marker segment. -/
def segsAfterMarker (p : Path) : List Path :=
  ((splitPat (ps "/") (replaceAll (ps "\\") (ps "/") p)).dropWhile
    (fun x => ! (x = ps "filmserver"))).tail

/-- Spec reading of the destination-relative path in the marker case: join
the segments after the marker, falling back to the bare file name when
nothing follows the marker. -/
def specRelAfterMarker (p : Path) : Path :=
  if segsAfterMarker p = [] then basenameP p
  else List.intercalate (ps "/") (segsAfterMarker p)

/-!  ## Concrete scenarios used by the theorems -/

/-- A scene file that references itself directly. -/
def fsD : SceneFS :=
  ⟨[ps "/s/a.usda"], [ps "/s"], ps "/w", [(ps "/s/a.usda", [ps "./a.usda"])]⟩

/-- A two-file reference cycle rooted at `/s/a.usda`. -/
def fsE : SceneFS :=
  ⟨[ps "/s/a.usda", ps "/s/b.usda"], [ps "/s"], ps "/w",
   [(ps "/s/a.usda", [ps "./b.usda"]), (ps "/s/b.usda", [ps "./a.usda"])]⟩

/-- Two existing textures whose paths differ only in case. -/
def fsC2 : SceneFS :=
  ⟨[ps "/x/m.usda", ps "/x/Tex.jpg", ps "/x/tex.jpg"], [ps "/x"], ps "/w",
   [(ps "/x/m.usda", [ps "./Tex.jpg", ps "./tex.jpg"])]⟩

/-- A root collecting a texture, then recursing into a file whose sibling
`shader/main.usda` yields a texture. -/
def fsF : SceneFS :=
  ⟨[ps "/s/p0.usd", ps "/s/t0.jpg", ps "/s/p1/p1.usda",
    ps "/s/p1/shader/main.usda", ps "/s/p1/shader/t2.jpg"],
   [ps "/s", ps "/s/p1", ps "/s/p1/shader"], ps "/w",
   [(ps "/s/p0.usd", [ps "./t0.jpg", ps "./p1/p1.usda"]),
    (ps "/s/p1/shader/main.usda", [ps "./t2.jpg"])]⟩

/-- As `fsF` but the shader document yields no textures, so processing falls
back to the file itself. -/
def fsG : SceneFS :=
  ⟨[ps "/s/p0.usd", ps "/s/t0.jpg", ps "/s/p1/p1.usda",
    ps "/s/p1/shader/main.usda", ps "/s/p1/t1.jpg"],
   [ps "/s", ps "/s/p1", ps "/s/p1/shader"], ps "/w",
   [(ps "/s/p0.usd", [ps "./t0.jpg", ps "./p1/p1.usda"]),
    (ps "/s/p1/p1.usda", [ps "./t1.jpg"]),
    (ps "/s/p1/shader/main.usda", [])]⟩

/-- A UDIM texture whose tiles exist while the templated path itself is no
file on disk. -/
def fsC9 : SceneFS :=
  ⟨[ps "/r/m.usda", ps "/r/t/a.1001.jpg"], [ps "/r", ps "/r/t"], ps "/w",
   [(ps "/r/m.usda", [ps "./t/a.<UDIM>.jpg"])]⟩

/-- A UDIM token whose joined path is missing but whose tile sits in the
sibling `txt` directory. -/
def fs8 : SceneFS :=
  ⟨[ps "/b/txt/tex.1001.jpg"], [ps "/b", ps "/b/usd", ps "/b/txt"], ps "/w", []⟩

/-- The same UDIM token with the joined path present on disk. -/
def fs8b : SceneFS :=
  ⟨[ps "/b/usd/t/tex.1001.jpg"], [ps "/b", ps "/b/usd", ps "/b/usd/t"], ps "/w", []⟩

/-- An empty filesystem for the quote/whitespace resolution scenarios. -/
def fs10 : SceneFS := ⟨[], [], ps "/w", []⟩

/-- An existing non-tiled texture file. -/
def fsC4 : SceneFS := ⟨[ps "/d/tex.jpg"], [ps "/d"], ps "/w", []⟩

/-- A repackage source under the root marker. -/
def fsH : SceneFS := ⟨[ps "/farm/filmserver/prop/a/main.usda"], [], ps "/w", []⟩

/-- Copies that succeed in the `fsH` scenario. -/
def okH : List Path := [ps "/farm/filmserver/prop/a/main.usda"]

/-- The repackage request of the root-marker scenario. -/
def reqH : PkgRequest :=
  ⟨ps "/farm/filmserver/prop/a/main.usda", ps "/out", [], []⟩

/-- A repackage scenario with two existing textures. -/
def fs7 : SceneFS :=
  ⟨[ps "/m/src.usda", ps "/q/t1.jpg", ps "/q/t2.jpg"], [ps "/m", ps "/q"],
   ps "/w", []⟩

/-- Copies that succeed when the copy of `t1.jpg` fails. -/
def ok7 : List Path := [ps "/m/src.usda", ps "/q/t2.jpg"]

/-- The request copying both textures. -/
def req7 : PkgRequest :=
  ⟨ps "/m/src.usda", ps "/out",
   [⟨some (ps "/q/t1.jpg"), ps "s1", ps ""⟩,
    ⟨some (ps "/q/t2.jpg"), ps "s2", ps ""⟩], []⟩

/-!  ## Helper lemmas -/

theorem memB_true_of_head (a : Path) (l : List Path) : memB a (a :: l) = true := by
  simp [memB]

theorem drop_idxOf_eq_dropWhile_tail (a : Path) :
    ∀ l : List Path, memB a l = true →
      l.drop (idxOfP a l + 1) = (l.dropWhile (fun x => ! (x = a))).tail := by
  intro l
  induction l with
  | nil => intro h; simp [memB] at h
  | cons x xs ih =>
    intro h
    by_cases hx : x = a
    · subst hx
      simp [idxOfP, List.dropWhile]
    · have hmem : memB a xs = true := by
        simpa [memB, hx] using h
      simp only [idxOfP, if_neg hx, List.dropWhile]
      simpa [hx] using ih hmem

theorem dropWhile_marker_length (a : Path) (l : List Path) (h : memB a l = true) :
    idxOfP a l + 1 ≤ l.length := by
  induction l with
  | nil => simp [memB] at h
  | cons x xs ih =>
    by_cases hx : x = a
    · simp [idxOfP, hx]
    · have hmem : memB a xs = true := by simpa [memB, hx] using h
      have := ih hmem
      simp only [idxOfP, if_neg hx, List.length_cons]
      omega

/-!  ## C8 -/

/-- C8: `resolve_path` substitutes the canonical test index for a tile
placeholder and restores it in the direct-join case, but in the sibling
`txt`-directory fallback-search case the source's rebuild of the answer
(`basename.replace('.1001.','').replace('.', pattern + '.')`) produces a name
without the placeholder: for token `./t/tex.####.jpg` against base `/b/usd`,
with `tex.1001.jpg` found under the sibling `txt` tree, the returned path is
`/b/txt/texjpg`, carrying no trace of the `.####.` template, contradicting
the code's own stated intent of restoring the placeholder.  The direct-join
case (`fs8b`) does restore the template. -/
theorem C8_resolve_restores_template :
    resolvePathFS fs8 (ps "./t/tex.####.jpg") (some (ps "/b/usd")) =
        some (ps "/b/txt/texjpg") ∧
      hasSub (ps ".####.") (ps "/b/txt/texjpg") = false ∧
      hasSub (ps "1001") (ps "/b/txt/texjpg") = false ∧
      resolvePathFS fs8b (ps "./t/tex.####.jpg") (some (ps "/b/usd")) =
        some (ps "/b/usd/t/tex.####.jpg") ∧
      hasSub (ps ".####.") (ps "/b/usd/t/tex.####.jpg") = true := by
  decide

/-!  ## C4 -/

/-- C4: the claim (count = 1 for an existing non-tiled file) is false:
`count_udim_textures_in_path` returns 0 for `/d/tex.jpg` although the file
exists. -/
theorem C4_counterexample :
    countUdimTexturesInPath fsC4 (ps "/d/tex.jpg") = 0 ∧
      fsExistsB fsC4 (ps "/d/tex.jpg") = true ∧
      ¬ countUdimTexturesInPath fsC4 (ps "/d/tex.jpg") =
          (if fsExistsB fsC4 (ps "/d/tex.jpg") = true then 1 else 0) := by
  decide

/-- C4 (amended): for every input path whose basename contains no tile
placeholder, the tile-count operation treats the path as non-tiled and
returns 0, regardless of whether the file exists on disk. -/
theorem C4_no_placeholder_counts_zero (fs : SceneFS) (p : Path)
    (h : udimCheckPats.any
        (fun pat => hasSub pat (basenameP (replaceAll (ps "\\") (ps "/") p))) = false) :
    countUdimTexturesInPath fs p = 0 := by
  unfold countUdimTexturesInPath
  by_cases hp : p = []
  · simp [hp]
  · simp only [if_neg hp, h]
    split <;> simp

/-- C4 witness: the amended theorem applied to the concrete scenario. -/
theorem C4_no_placeholder_counts_zero_witness :
    countUdimTexturesInPath fsC4 (ps "/d/tex.jpg") = 0 :=
  C4_no_placeholder_counts_zero fsC4 (ps "/d/tex.jpg") (by decide)

/-!  ## C1 -/

/-- C1: the claim asserts the marker segment itself appears in the computed
destination; the code joins the destination root with the segments strictly
AFTER the marker.  For source `/farm/filmserver/prop/a/main.usda` (marker
`filmserver`) and destination root `/out`, the manifest records destination
`/out/prop/a/main.usda`, not `/out/filmserver/prop/a/main.usda`. -/
theorem C1_counterexample :
    (packageFiles fsH okH reqH).copied =
        some ⟨ps "/out/prop/a/main.usda", [], []⟩ ∧
      ¬ (packageFiles fsH okH reqH).copied =
          some ⟨ps "/out/filmserver/prop/a/main.usda", [], []⟩ := by
  decide

/-- C1 (amended): for every source path containing the root-marker segment,
the computed destination-relative path consists of the segments strictly
after the first marker occurrence (the marker itself excluded), with the bare
file name as degenerate fallback; this holds for the main-file computation
and for the reference computation, and in the scenario the manifest
destination is the destination root joined with that suffix. -/
theorem C1_marker_excluded :
    (∀ p : Path,
        memB (ps "filmserver") (splitPat (ps "/") (replaceAll (ps "\\") (ps "/") p)) = true →
          mainRelativePath p = specRelAfterMarker p) ∧
      (∀ sf p : Path,
        memB (ps "filmserver") (splitPat (ps "/") (replaceAll (ps "\\") (ps "/") p)) = true →
          refRelativePath sf p = specRelAfterMarker p) ∧
      (packageFiles fsH okH reqH).copied =
        some ⟨pjoin (ps "/out")
                (specRelAfterMarker (ps "/farm/filmserver/prop/a/main.usda")), [], []⟩ := by
  have key : ∀ p : Path,
      memB (ps "filmserver") (splitPat (ps "/") (replaceAll (ps "\\") (ps "/") p)) = true →
        (let parts := splitPat (ps "/") (replaceAll (ps "\\") (ps "/") p)
         (if idxOfP (ps "filmserver") parts + 1 < parts.length then
            List.intercalate (ps "/") (parts.drop (idxOfP (ps "filmserver") parts + 1))
          else basenameP p) = specRelAfterMarker p) := by
    intro p h
    have hdrop := drop_idxOf_eq_dropWhile_tail (ps "filmserver") _ h
    have hlen := dropWhile_marker_length (ps "filmserver") _ h
    simp only [specRelAfterMarker, segsAfterMarker]
    rw [← hdrop]
    by_cases hlt : idxOfP (ps "filmserver")
        (splitPat (ps "/") (replaceAll (ps "\\") (ps "/") p)) + 1 <
        (splitPat (ps "/") (replaceAll (ps "\\") (ps "/") p)).length
    · have hne : (splitPat (ps "/") (replaceAll (ps "\\") (ps "/") p)).drop
          (idxOfP (ps "filmserver") (splitPat (ps "/") (replaceAll (ps "\\") (ps "/") p)) + 1) ≠ [] := by
        intro hnil
        have := List.length_drop
          (idxOfP (ps "filmserver") (splitPat (ps "/") (replaceAll (ps "\\") (ps "/") p)) + 1)
          (splitPat (ps "/") (replaceAll (ps "\\") (ps "/") p))
        rw [hnil] at this
        simp at this
        omega
      simp [hlt, hne]
    · have hnil : (splitPat (ps "/") (replaceAll (ps "\\") (ps "/") p)).drop
          (idxOfP (ps "filmserver") (splitPat (ps "/") (replaceAll (ps "\\") (ps "/") p)) + 1) = [] := by
        apply List.drop_eq_nil_of_le
        omega
      simp [hlt, hnil]
  refine ⟨?_, ?_, ?_⟩
  · intro p h
    have hk := key p h
    simpa [mainRelativePath, h] using hk
  · intro sf p h
    have hk := key p h
    simpa [refRelativePath, relPathFilmserver, h] using hk
  · decide

/-- C1 witness: the amended computation at the scenario input. -/
theorem C1_marker_excluded_witness :
    mainRelativePath (ps "/farm/filmserver/prop/a/main.usda") =
      specRelAfterMarker (ps "/farm/filmserver/prop/a/main.usda") :=
  C1_marker_excluded.1 (ps "/farm/filmserver/prop/a/main.usda") (by decide)

/-!  ## C7 -/

theorem texCopyStep_none (fs : SceneFS) (copyOk : List Path) (out src : Path) :
    ∀ l : List PkgTexReq, l.foldl (texCopyStep fs copyOk out src) none = none := by
  intro l
  induction l with
  | nil => rfl
  | cons t rest ih => simpa [texCopyStep] using ih

/-- C7: the claim is false at a concrete input: `t1.jpg` and `t2.jpg` both
exist, `t2.jpg` is copyable, but the failing copy of `t1.jpg` aborts the
whole batch — the endpoint answers `success = false` with no manifest, and
`t2.jpg` is never copied. -/
theorem C7_counterexample :
    (packageFiles fs7 ok7 req7).success = false ∧
      (packageFiles fs7 ok7 req7).copied = none ∧
      fsExistsB fs7 (ps "/q/t2.jpg") = true ∧
      memB (ps "/q/t2.jpg") ok7 = true := by
  decide

/-- C7 (amended): missing reference or texture source files are skipped with
nothing recorded in the response and the batch continues (removal of such an
item does not change the result); an individual reference-copy failure is
likewise silently skipped; but an individual texture-copy failure aborts the
batch and the endpoint returns no manifest. -/
theorem C7_skip_and_abort :
    (∀ (fs : SceneFS) (ok : List Path) (out src : Path) (l1 l2 : List PkgRefReq)
        (acc : List CopiedRef) (r : PkgRefReq) (rp : Path),
        r.rpath = some rp → rp ≠ [] → fsExistsB fs rp = false →
          copyRefsLoop fs ok out src (l1 ++ r :: l2) acc =
            copyRefsLoop fs ok out src (l1 ++ l2) acc) ∧
      (∀ (fs : SceneFS) (ok : List Path) (out src : Path) (l1 l2 : List PkgRefReq)
        (acc : List CopiedRef) (r : PkgRefReq) (rp : Path),
        r.rpath = some rp → rp ≠ [] → fsExistsB fs rp = true → memB rp ok = false →
          copyRefsLoop fs ok out src (l1 ++ r :: l2) acc =
            copyRefsLoop fs ok out src (l1 ++ l2) acc) ∧
      (∀ (fs : SceneFS) (ok : List Path) (out src : Path) (l1 l2 : List PkgTexReq)
        (acc : List CopiedTex) (t : PkgTexReq) (tp : Path),
        t.tpath = some tp → tp ≠ [] → pkgUdimInfo tp = none → fsExistsB fs tp = false →
          copyTexsLoop fs ok out src (l1 ++ t :: l2) acc =
            copyTexsLoop fs ok out src (l1 ++ l2) acc) ∧
      (∀ (fs : SceneFS) (ok : List Path) (out src : Path) (l1 l2 : List PkgTexReq)
        (acc acc1 : List CopiedTex) (t : PkgTexReq) (tp : Path),
        t.tpath = some tp → tp ≠ [] → pkgUdimInfo tp = none → fsExistsB fs tp = true →
          memB tp ok = false →
          copyTexsLoop fs ok out src l1 acc = some acc1 →
          copyTexsLoop fs ok out src (l1 ++ t :: l2) acc = none) := by
  refine ⟨?_, ?_, ?_, ?_⟩
  · intro fs ok out src l1 l2 acc r rp hr hne hex
    have hstep : ∀ a, refCopyStep fs ok out src a r = a := by
      intro a
      simp [refCopyStep, hr, hne, hex]
    simp [copyRefsLoop, List.foldl_append, hstep]
  · intro fs ok out src l1 l2 acc r rp hr hne hex hok
    have hstep : ∀ a, refCopyStep fs ok out src a r = a := by
      intro a
      simp [refCopyStep, hr, hne, hex, hok]
    simp [copyRefsLoop, List.foldl_append, hstep]
  · intro fs ok out src l1 l2 acc t tp ht hne hud hex
    have hstep : ∀ st, texCopyStep fs ok out src st t = st := by
      intro st
      cases st <;> simp [texCopyStep, ht, hne, hud, hex]
    simp [copyTexsLoop, List.foldl_append, hstep]
  · intro fs ok out src l1 l2 acc acc1 t tp ht hne hud hex hok hpre
    have hstep : texCopyStep fs ok out src (some acc1) t = none := by
      simp [texCopyStep, ht, hne, hud, hex, hok]
    have : copyTexsLoop fs ok out src (l1 ++ t :: l2) acc =
        l2.foldl (texCopyStep fs ok out src)
          (texCopyStep fs ok out src (l1.foldl (texCopyStep fs ok out src) (some acc)) t) := by
      simp [copyTexsLoop, List.foldl_append]
    rw [this]
    have hpre : l1.foldl (texCopyStep fs ok out src) (some acc) = some acc1 := hpre
    rw [hpre, hstep]
    exact texCopyStep_none fs ok out src l2

/-- C7 witness: removing a missing texture from a concrete request does not
change the copy result. -/
theorem C7_skip_and_abort_witness :
    copyTexsLoop fs7 ok7 (ps "/out") (ps "/m/src.usda")
        ([] ++ (⟨some (ps "/q/none.jpg"), ps "s", ps ""⟩ : PkgTexReq) :: []) [] =
      copyTexsLoop fs7 ok7 (ps "/out") (ps "/m/src.usda") ([] ++ []) [] :=
  C7_skip_and_abort.2.2.1 fs7 ok7 (ps "/out") (ps "/m/src.usda") [] [] []
    ⟨some (ps "/q/none.jpg"), ps "s", ps ""⟩ (ps "/q/none.jpg")
    (by decide) (by decide) (by decide) (by decide)

/-!  ## C2 -/

/-- C2: the claim is false for textures: one analyze run yields two distinct
texture entries whose paths compare equal case-insensitively. -/
theorem C2_counterexample :
    ((analyzeUsdFile fsC2 20 (ps "/x/m.usda") (some (ps "/x"))).textures.map
        TexEntry.path) = [ps "/x/Tex.jpg", ps "/x/tex.jpg"] ∧
      lowerP (ps "/x/Tex.jpg") = lowerP (ps "/x/tex.jpg") ∧
      ¬ (ps "/x/Tex.jpg") = (ps "/x/tex.jpg") := by
  decide

theorem normRefsLoop_pairwise (fs : SceneFS) (d : Option Path) :
    ∀ (refs : List (Path × Path)) (upaths : List Path) (acc : List (Path × Path)),
      (∀ x ∈ acc, x.1 ∈ upaths) →
      List.Pairwise (fun a b : Path × Path => ¬ lowerP a.1 = lowerP b.1) acc →
      List.Pairwise (fun a b : Path × Path => ¬ lowerP a.1 = lowerP b.1)
        (normRefsLoop fs d refs upaths acc) := by
  intro refs
  induction refs with
  | nil => intro upaths acc _ hpair; simpa [normRefsLoop] using hpair
  | cons head rest ih =>
    intro upaths acc hinv hpair
    obtain ⟨ref, ty⟩ := head
    simp only [normRefsLoop]
    cases hres : resolvePathFS fs ref d with
    | none => exact ih upaths acc hinv hpair
    | some rp =>
      by_cases hex : fsExistsB fs rp = true
      · simp only [hex, if_true]
        cases hnorm : normalizePathFS rp with
        | none => exact ih upaths acc hinv hpair
        | some np =>
          by_cases hdup : upaths.any (fun e => lowerP np = lowerP e) = true
          · simp only [hdup, if_true]
            exact ih upaths acc hinv hpair
          · simp only [hdup]
            simp only [Bool.false_eq_true, if_false]
            apply ih
            · intro x hx
              rcases List.mem_append.mp hx with hx | hx
              · exact List.mem_append_left _ (hinv x hx)
              · simp at hx
                subst hx
                simp
            · rw [List.pairwise_append]
              refine ⟨hpair, List.pairwise_singleton _ _, ?_⟩
              intro a ha b hb
              simp at hb
              subst hb
              have hal : a.1 ∈ upaths := hinv a ha
              intro heq
              apply hdup
              rw [List.any_eq_true]
              exact ⟨a.1, hal, by simp [heq]⟩
      · simp only [hex]
        simp only [Bool.false_eq_true, if_false]
        exact ih upaths acc hinv hpair

theorem upsertPS_keys (m : List (Path × Path)) (k v : Path) :
    (upsertPS m k v).map Prod.fst =
      if m.any (fun e => e.1 = k) then m.map Prod.fst else m.map Prod.fst ++ [k] := by
  unfold upsertPS
  by_cases h : m.any (fun e => e.1 = k) = true
  · simp only [h, if_true, List.map_map]
    apply List.map_congr_left
    intro e _
    by_cases he : e.1 = k
    · simp [he]
    · simp [he]
  · simp [h]

theorem upsertPS_keys_nodup (m : List (Path × Path)) (k v : Path)
    (h : (m.map Prod.fst).Nodup) : ((upsertPS m k v).map Prod.fst).Nodup := by
  rw [upsertPS_keys]
  by_cases hany : m.any (fun e => e.1 = k) = true
  · simpa [hany] using h
  · simp only [hany]
    simp only [Bool.false_eq_true, if_false]
    rw [List.nodup_append]
    refine ⟨h, List.nodup_singleton _, ?_⟩
    intro a ha hb
    simp at hb
    subst hb
    rcases List.mem_map.mp ha with ⟨e, he, hek⟩
    apply hany
    rw [List.any_eq_true]
    exact ⟨e, he, by simp [hek]⟩

theorem normTexLoop_keys_nodup (fs : SceneFS) (d : Option Path) :
    ∀ (texs utex : List (Path × Path)) (cnts : List (Path × Nat)),
      ((utex.map Prod.fst).Nodup) →
      (((normTexLoop fs d texs utex cnts).1.map Prod.fst)).Nodup := by
  intro texs
  induction texs with
  | nil => intro utex cnts h; simpa [normTexLoop] using h
  | cons head rest ih =>
    intro utex cnts h
    obtain ⟨tp, src⟩ := head
    simp only [normTexLoop]
    cases hres : resolvePathFS fs tp d with
    | none => exact ih utex cnts h
    | some rp =>
      dsimp only
      cases hnorm : normalizePathFS rp with
      | none => exact ih utex cnts h
      | some np =>
        dsimp only
        by_cases hud : udimCheckPats.any (fun pat => hasSub pat np) = true
        · simp only [hud, if_true]
          by_cases hc : 0 < countUdimTexturesInPath fs np
          · simp only [hc, if_true]
            exact ih _ _ (upsertPS_keys_nodup utex np src h)
          · simp only [hc, if_false]
            exact ih utex cnts h
        · simp only [hud]
          simp only [Bool.false_eq_true, if_false]
          by_cases hex : fsExistsB fs np = true
          · simp only [hex, if_true]
            exact ih _ _ (upsertPS_keys_nodup utex np src h)
          · simp only [hex]
            simp only [Bool.false_eq_true, if_false]
            exact ih utex cnts h

/-- C2 (amended): in the final report of one analyze run, no two distinct
reference entries compare equal case-insensitively (the reference dedup is
case-insensitive), while texture deduplication is exact: the texture list has
no two entries with the SAME path string, but paths differing only in case
may both appear (see the counterexample). -/
theorem C2_dedup_refs_ci_textures_exact :
    (∀ (fs : SceneFS) (fuel : Nat) (fp : Path) (d : Option Path),
        List.Pairwise (fun a b : RefEntry => ¬ lowerP a.path = lowerP b.path)
          (analyzeUsdFile fs fuel fp d).references) ∧
      (∀ (fs : SceneFS) (fuel : Nat) (fp : Path) (d : Option Path),
        ((analyzeUsdFile fs fuel fp d).textures.map TexEntry.path).Nodup) := by
  constructor
  · intro fs fuel fp d
    have hbase := normRefsLoop_pairwise fs d
      (extractAssetsFromUsd fs fuel fp d ⟨[], [], [], []⟩).references [] []
      (by intro x hx; simp at hx) (List.Pairwise.nil)
    simp only [analyzeUsdFile]
    rw [List.pairwise_map]
    exact hbase
  · intro fs fuel fp d
    have hbase := normTexLoop_keys_nodup fs d
      (extractAssetsFromUsd fs fuel fp d ⟨[], [], [], []⟩).textures []
      (extractAssetsFromUsd fs fuel fp d ⟨[], [], [], []⟩).udimCounts
      (by simp)
    simp only [analyzeUsdFile]
    rw [List.map_map]
    exact hbase

/-!  ## C5 -/

theorem normRefsLoop_mem (fs : SceneFS) (d : Option Path) :
    ∀ (refs : List (Path × Path)) (upaths : List Path) (acc : List (Path × Path))
      (e : Path × Path), e ∈ normRefsLoop fs d refs upaths acc →
      e ∈ acc ∨ ∃ r, r ∈ refs ∧ ∃ rp, resolvePathFS fs r.1 d = some rp ∧
        fsExistsB fs rp = true ∧ normalizePathFS rp = some e.1 ∧ e.2 = r.2 := by
  intro refs
  induction refs with
  | nil =>
    intro upaths acc e he
    left
    simpa [normRefsLoop] using he
  | cons head rest ih =>
    intro upaths acc e he
    obtain ⟨ref, ty⟩ := head
    simp only [normRefsLoop] at he
    have push : e ∈ acc ∨ (∃ r, r ∈ rest ∧ ∃ rp, resolvePathFS fs r.1 d = some rp ∧
        fsExistsB fs rp = true ∧ normalizePathFS rp = some e.1 ∧ e.2 = r.2) →
        e ∈ acc ∨ ∃ r, r ∈ (ref, ty) :: rest ∧ ∃ rp, resolvePathFS fs r.1 d = some rp ∧
          fsExistsB fs rp = true ∧ normalizePathFS rp = some e.1 ∧ e.2 = r.2 := by
      rintro (h | ⟨r, hr, h⟩)
      · exact Or.inl h
      · exact Or.inr ⟨r, List.mem_cons_of_mem _ hr, h⟩
    revert he
    cases hres : resolvePathFS fs ref d with
    | none =>
      intro he
      exact push (ih upaths acc e he)
    | some rp =>
      dsimp only
      by_cases hex : fsExistsB fs rp = true
      · simp only [hex, if_true]
        cases hnorm : normalizePathFS rp with
        | none =>
          intro he
          exact push (ih upaths acc e he)
        | some np =>
          dsimp only
          by_cases hdup : upaths.any (fun e => lowerP np = lowerP e) = true
          · simp only [hdup, if_true]
            intro he
            exact push (ih upaths acc e he)
          · simp only [hdup, Bool.false_eq_true, if_false]
            intro he
            rcases ih _ _ e he with hacc | ⟨r, hr, hrest⟩
            · rcases List.mem_append.mp hacc with hacc | hnew
              · exact Or.inl hacc
              · simp at hnew
                subst hnew
                exact Or.inr ⟨(ref, ty), List.mem_cons_self _ _,
                  rp, hres, hex, by simpa using hnorm, rfl⟩
            · exact Or.inr ⟨r, List.mem_cons_of_mem _ hr, hrest⟩
      · simp only [hex, Bool.false_eq_true, if_false]
        intro he
        exact push (ih upaths acc e he)

/-- C5: every reference entry surviving normalization stems from a raw token
whose resolved path exists on disk at normalization time (existence is
re-checked there) and whose normalization is the stored path; consequently a
token whose resolved path does not exist contributes no entry.  The second
conjunct restates this for the entries of the final report. -/
theorem C5_existence_filtering :
    (∀ (fs : SceneFS) (d : Option Path) (refs : List (Path × Path)) (e : Path × Path),
        e ∈ normRefsLoop fs d refs [] [] →
          ∃ r, r ∈ refs ∧ ∃ rp, resolvePathFS fs r.1 d = some rp ∧
            fsExistsB fs rp = true ∧ normalizePathFS rp = some e.1 ∧ e.2 = r.2) ∧
      (∀ (fs : SceneFS) (fuel : Nat) (fp : Path) (d : Option Path) (e : RefEntry),
        e ∈ (analyzeUsdFile fs fuel fp d).references →
          ∃ rp, fsExistsB fs rp = true ∧ normalizePathFS rp = some e.path) := by
  constructor
  · intro fs d refs e he
    rcases normRefsLoop_mem fs d refs [] [] e he with hacc | h
    · simp at hacc
    · exact h
  · intro fs fuel fp d e he
    simp only [analyzeUsdFile, List.mem_map] at he
    obtain ⟨x, hx, rfl⟩ := he
    rcases normRefsLoop_mem fs d _ [] [] x hx with hacc | ⟨r, _, rp, _, hex, hnorm, _⟩
    · simp at hacc
    · exact ⟨rp, hex, hnorm⟩

/-- C5 witness: the provenance fact at a concrete normalization run. -/
theorem C5_existence_filtering_witness :
    ∃ r, r ∈ [(ps "./a.usda", ps "reference")] ∧
      ∃ rp, resolvePathFS fsD r.1 (some (ps "/s")) = some rp ∧
        fsExistsB fsD rp = true ∧
        normalizePathFS rp = some (ps "/s/a.usda", ps "reference").1 ∧
        (ps "/s/a.usda", ps "reference").2 = r.2 :=
  C5_existence_filtering.1 fsD (some (ps "/s")) [(ps "./a.usda", ps "reference")]
    (ps "/s/a.usda", ps "reference") (by decide)

/-!  ## C6 -/

/-- C6: the visited-set guard never re-enters an already-processed resolved
path (first conjunct); in every run the final reference list is free of
case-insensitive duplicates, so any cyclic reference appears at most once
(second conjunct); and for every sufficient fuel, analyzing a directly
self-referencing scene file terminates with the cyclic reference exactly once
in the final reference list, likewise for a two-file cycle. -/
theorem C6_cycle_safety :
    (∀ (fs : SceneFS) (fuel : Nat) (p : Path) (b : Option Path) (s : AState)
        (abs : Path), resolvePathFS fs p b = some abs →
        memB abs s.processed = true → runJob fs fuel (Job.one p b) s = s) ∧
      (∀ (fs : SceneFS) (fuel : Nat) (fp : Path) (d : Option Path),
        List.Pairwise (fun a b : RefEntry => ¬ lowerP a.path = lowerP b.path)
          (analyzeUsdFile fs fuel fp d).references) ∧
      (∀ f : Nat,
        (analyzeUsdFile fsD (f + 20) (ps "/s/a.usda") (some (ps "/s"))).references =
            [⟨ps "/s/a.usda", ps "reference", true⟩] ∧
          ((analyzeUsdFile fsD (f + 20) (ps "/s/a.usda") (some (ps "/s"))).references.countP
              (fun e => decide (e.path = ps "/s/a.usda"))) = 1) ∧
      (∀ f : Nat,
        (analyzeUsdFile fsE (f + 20) (ps "/s/a.usda") (some (ps "/s"))).references =
            [⟨ps "/s/b.usda", ps "reference", true⟩,
             ⟨ps "/s/a.usda", ps "reference", true⟩] ∧
          ((analyzeUsdFile fsE (f + 20) (ps "/s/a.usda") (some (ps "/s"))).references.countP
              (fun e => decide (e.path = ps "/s/a.usda"))) = 1) := by
  refine ⟨?_, ?_, ?_, ?_⟩
  · intro fs fuel p b s abs hres hmem
    cases fuel with
    | zero => rfl
    | succ n =>
      simp only [runJob, hres, hmem, if_true]
  · intro fs fuel fp d
    have hbase := normRefsLoop_pairwise fs d
      (extractAssetsFromUsd fs fuel fp d ⟨[], [], [], []⟩).references [] []
      (by intro x hx; simp at hx) (List.Pairwise.nil)
    simp only [analyzeUsdFile]
    rw [List.pairwise_map]
    exact hbase
  · intro f
    exact ⟨rfl, rfl⟩
  · intro f
    exact ⟨rfl, rfl⟩

/-- C6 witness: the guard applied at a concrete already-visited state. -/
theorem C6_cycle_safety_witness :
    runJob fsD 5 (Job.one (ps "/s/a.usda") (some (ps "/s")))
        ⟨[ps "/s/a.usda"], [], [], []⟩ = ⟨[ps "/s/a.usda"], [], [], []⟩ :=
  C6_cycle_safety.1 fsD 5 (ps "/s/a.usda") (some (ps "/s"))
    ⟨[ps "/s/a.usda"], [], [], []⟩ (ps "/s/a.usda") (by decide) (by decide)

/-!  ## C3 -/

/-- C3: when a sibling `shader` directory with a `main.usda` exists next to a
visited path, the textures collected so far are cleared — the traversal
result does not depend on them (first conjunct); in the `fsF` scenario the
shader document's texture is the only one kept for the branch (the previously
collected `/s/t0.jpg` is discarded), and in the `fsG` scenario, where the
shader document yields no textures, traversal falls back to normal processing
of the file itself. -/
theorem C3_shader_override :
    (∀ (fs : SceneFS) (fuel : Nat) (p : Path) (base : Option Path) (s : AState)
        (ts : List (Path × Path)) (abs : Path),
        resolvePathFS fs p base = some abs →
        memB abs s.processed = false →
        fsExistsB fs abs = true →
        shaderCaseB fs abs = true →
        runJob fs (fuel + 1) (Job.one p base) { s with textures := ts } =
          runJob fs (fuel + 1) (Job.one p base) s) ∧
      (∀ f : Nat,
        (extractAssetsFromUsd fsF (f + 20) (ps "/s/p0.usd") (some (ps "/s"))
            ⟨[], [], [], []⟩).textures =
          [(ps "/s/p1/shader/t2.jpg", ps "shader:texture")]) ∧
      (∀ f : Nat,
        (extractAssetsFromUsd fsG (f + 20) (ps "/s/p0.usd") (some (ps "/s"))
            ⟨[], [], [], []⟩).textures =
          [(ps "/s/p1/t1.jpg", ps "p1.usda:texture_reference"),
           (ps "/s/t1.jpg", ps "p1.usda:texture")]) := by
  refine ⟨?_, ?_, ?_⟩
  · intro fs fuel p base s ts abs hres hmem hex hsh
    obtain ⟨pr, tx, rf, uc⟩ := s
    simp only at hmem
    simp only [runJob, hres, hmem, hex, hsh, Bool.false_eq_true, if_false,
      Bool.not_true, if_true]
    by_cases hradd : refAlreadyAddedTok fs (some (base.getD (dirnameP abs))) rf
        (shaderMainOf abs) = true <;>
      simp [hradd]
  · intro f
    rfl
  · intro f
    rfl

/-- C3 witness: previously collected textures do not influence the result
when the shader case fires. -/
theorem C3_shader_override_witness :
    runJob fsF 20 (Job.one (ps "/s/p1/p1.usda") (some (ps "/s")))
        ⟨[], [(ps "/old.jpg", ps "o")], [], []⟩ =
      runJob fsF 20 (Job.one (ps "/s/p1/p1.usda") (some (ps "/s")))
        ⟨[], [], [], []⟩ :=
  C3_shader_override.1 fsF 19 (ps "/s/p1/p1.usda") (some (ps "/s"))
    ⟨[], [], [], []⟩ [(ps "/old.jpg", ps "o")] (ps "/s/p1/p1.usda")
    (by decide) (by decide) (by decide) (by decide)

/-!  ## C9 -/

/-- C9: every texture entry of the report carries the literal `true` in its
`exists` field, regardless of whether the stored (possibly
placeholder-templated) path exists as a file on disk, while reference entries
re-check existence with a filesystem query at report-build time; in the
`fsC9` scenario the templated texture path is reported with `exists = true`
although no such file exists. -/
theorem C9_texture_exists_literal :
    (∀ (fs : SceneFS) (fuel : Nat) (fp : Path) (d : Option Path) (e : TexEntry),
        e ∈ (analyzeUsdFile fs fuel fp d).textures → e.fexists = true) ∧
      (∀ (fs : SceneFS) (fuel : Nat) (fp : Path) (d : Option Path) (e : RefEntry),
        e ∈ (analyzeUsdFile fs fuel fp d).references →
          e.fexists = fsExistsB fs e.path) ∧
      (analyzeUsdFile fsC9 20 (ps "/r/m.usda") (some (ps "/r"))).textures =
        [⟨ps "/r/t/a.<UDIM>.jpg", ps "m.usda:texture_reference", true, 1⟩] ∧
      fsExistsB fsC9 (ps "/r/t/a.<UDIM>.jpg") = false := by
  refine ⟨?_, ?_, ?_, ?_⟩
  · intro fs fuel fp d e he
    simp only [analyzeUsdFile, List.mem_map] at he
    obtain ⟨x, _, rfl⟩ := he
    rfl
  · intro fs fuel fp d e he
    simp only [analyzeUsdFile, List.mem_map] at he
    obtain ⟨x, _, rfl⟩ := he
    rfl
  · rfl
  · rfl

/-- C9 witness: the literal flag at the concrete templated entry. -/
theorem C9_texture_exists_literal_witness :
    (⟨ps "/r/t/a.<UDIM>.jpg", ps "m.usda:texture_reference", true, 1⟩ :
        TexEntry).fexists = true :=
  C9_texture_exists_literal.1 fsC9 20 (ps "/r/m.usda") (some (ps "/r"))
    ⟨ps "/r/t/a.<UDIM>.jpg", ps "m.usda:texture_reference", true, 1⟩ (by decide)

/-!  ## C10 -/

/-- C10: `resolve_path` tests absoluteness before stripping, so an absolute
path wrapped in quotes (or preceded by whitespace) is not recognized as
absolute (first two conjuncts, for any absolute path); concretely, such a
token is not returned unchanged but stripped and resolved through the
relative-path branch against the base directory. -/
theorem C10_isabs_before_strip :
    (∀ p : Path, isabsP p = true → isabsP ('"' :: p ++ ['"']) = false) ∧
      (∀ p : Path, isabsP p = true → isabsP (' ' :: p) = false) ∧
      resolvePathFS fs10 (ps "\"/q/a.usda\"") (some (ps "/base")) =
        some (ps "/q/a.usda") ∧
      ¬ resolvePathFS fs10 (ps "\"/q/a.usda\"") (some (ps "/base")) =
          some (ps "\"/q/a.usda\"") ∧
      resolvePathFS fs10 (ps "\"/q/a.usda\"") (some (ps "/base")) =
        some (normpathP (pjoin (ps "/base")
          (stripQuotes (stripWs (ps "\"/q/a.usda\""))))) ∧
      resolvePathFS fs10 (ps " /q/a.usda") (some (ps "/base")) =
        some (ps "/q/a.usda") := by
  refine ⟨?_, ?_, by decide, by decide, by decide, by decide⟩
  · intro p h
    cases p with
    | nil => simp [isabsP] at h
    | cons c rest =>
      cases rest with
      | nil =>
        have hc : c = '/' := by
          by_contra hc
          simp [isabsP, hc] at h
        subst hc
        decide
      | cons c2 rest2 =>
        have hdisj : c = '/' ∨ c2 = ':' := by
          by_cases hc : c = '/'
          · exact Or.inl hc
          · cases rest2 with
            | nil => simp [isabsP, hc] at h
            | cons c3 rest3 =>
              simp [isabsP, hc] at h
              exact Or.inr h.1
        rcases hdisj with hc | hc2
        · subst hc
          simp only [isabsP, List.cons_append]
          rw [if_neg (by decide)]
          simp
        · subst hc2
          simp only [isabsP, List.cons_append]
          rw [if_neg (by decide)]
          cases rest2 with
          | nil => simp
          | cons c3 rest3 => simp
  · intro p h
    cases p with
    | nil => simp [isabsP] at h
    | cons c rest =>
      cases rest with
      | nil =>
        have hc : c = '/' := by
          by_contra hc
          simp [isabsP, hc] at h
        subst hc
        decide
      | cons c2 rest2 =>
        have hdisj : c = '/' ∨ c2 = ':' := by
          by_cases hc : c = '/'
          · exact Or.inl hc
          · cases rest2 with
            | nil => simp [isabsP, hc] at h
            | cons c3 rest3 =>
              simp [isabsP, hc] at h
              exact Or.inr h.1
        rcases hdisj with hc | hc2
        · subst hc
          simp only [isabsP]
          rw [if_neg (by decide)]
          simp
        · subst hc2
          simp only [isabsP]
          rw [if_neg (by decide)]
          simp

/-- C10 witness: the quote and whitespace wrappers at a concrete absolute
path. -/
theorem C10_isabs_before_strip_witness :
    isabsP ('"' :: ps "/q/a.usda" ++ ['"']) = false ∧
      isabsP (' ' :: ps "/q/a.usda") = false :=
  ⟨C10_isabs_before_strip.1 (ps "/q/a.usda") (by decide),
   C10_isabs_before_strip.2.1 (ps "/q/a.usda") (by decide)⟩

end UsdWeb
